import Mathlib

/-!
Shallow embedding of the `dependency-scanner` pipeline (scanner.js and
src/utils), together with theorems settling the spec claims about it.

Conventions of the embedding:
* JavaScript strings are Lean `String`s; ASCII `toLowerCase`/`toUpperCase`
  are modelled by `lowerStr`/`capitalize` (the scanner only handles ASCII
  URLs, package names and version strings).
* Machine numbers: version components are parsed with JavaScript `Number`
  on digit runs, modelled as `Nat` (`jsNum`); CVSS scores (`parseFloat`)
  are modelled by their rational value.
* Network calls are explicit parameters: a registry / OSV / page fetch is a
  value of `Except Unit _` (`.error` = the underlying `exec`/`fetch`
  rejected) or `Option` (`none` = fetch failed or timed out), passed into
  the function that the JavaScript code had perform the call.
* `try { ... } catch { ... }` becomes a `match` on the `Except` result.
-/

namespace DepScan

/-- ASCII lowercasing of one character, modelling JavaScript
`toLowerCase` and the regex `i` flag on the ASCII inputs the scanner
handles. -/
def lowerChar (c : Char) : Char :=
  if 'A' ≤ c ∧ c ≤ 'Z' then Char.ofNat (c.toNat + 32) else c

/-- ASCII uppercasing of one character (JavaScript `toUpperCase`). -/
def upperChar (c : Char) : Char :=
  if 'a' ≤ c ∧ c ≤ 'z' then Char.ofNat (c.toNat - 32) else c

/-- ASCII `String.prototype.toLowerCase`. -/
def lowerStr (s : String) : String := String.mk (s.data.map lowerChar)

/-- `lib.charAt(0).toUpperCase() + lib.slice(1)` from `detectLibraries`. -/
def capitalize (s : String) : String :=
  match s.data with
  | [] => ""
  | c :: r => String.mk (upperChar c :: r)

/-- `listStarts pre l` holds when `pre` is an initial segment of `l`
(used to model literal-prefix regex matching and `startsWith`). -/
def listStarts : List Char → List Char → Bool
  | [], _ => true
  | _ :: _, [] => false
  | a :: as, b :: bs => a = b && listStarts as bs

/-- `String.prototype.startsWith` on ASCII strings. -/
def strStarts (pre s : String) : Bool := listStarts pre.data s.data

/-- Substring containment (one regex-free JS `test` of a literal). -/
def containsSub : List Char → List Char → Bool
  | hay, needle =>
    listStarts needle hay ||
    match hay with
    | [] => false
    | _ :: t => containsSub t needle

/-! ## utils/versionCheck.js -/

/-- The greedy `(\.\d+){0,k}` tail of the version regex in
`coerceSemver` (`/\d+(?:\.\d+){0,3}/` with `k = 3`): repeatedly consume a
dot followed by a maximal digit run, at most `k` times. -/
def dotGroupsN : Nat → List Char → List Char
  | 0, _ => []
  | k+1, cs =>
    match cs with
    | a :: b :: rest =>
      if a = '.' ∧ b.isDigit then
        '.' :: ((b :: rest).takeWhile Char.isDigit)
          ++ dotGroupsN k ((b :: rest).dropWhile Char.isDigit)
      else []
    | _ => []

/-- Leftmost match of `/\d+(?:\.\d+){0,3}/` (the `String.match` call in
`coerceSemver`): scan to the first digit, take the maximal digit run and
then up to three greedy `.digits` groups. -/
def semverMatch : List Char → Option (List Char)
  | [] => none
  | c :: rest =>
    if c.isDigit then
      some (((c :: rest).takeWhile Char.isDigit)
        ++ dotGroupsN 3 ((c :: rest).dropWhile Char.isDigit))
    else semverMatch rest

/-- `coerceSemver` from utils/versionCheck.js: first dotted numeric token
of the string, or the `"0.0.0"` default when there is none (this also
covers the `if (!v)` falsy guard, since a falsy string is empty and has no
match). -/
def coerceSemver (v : String) : String :=
  match semverMatch v.data with
  | some m => String.mk m
  | none => "0.0.0"

/-- JavaScript `Number` on the digit-run components produced by
`coerceSemver` (exact for the scanner's version components; `Number` of
the empty string is `0`). -/
def jsNum (s : String) : Nat :=
  s.data.foldl (fun n c => 10 * n + (c.toNat - 48)) 0

/-- `String.prototype.split(".")`: cut at every dot. -/
def splitDotsAux (cur : List Char) : List Char → List String
  | [] => [String.mk cur.reverse]
  | c :: t =>
    if c = '.' then String.mk cur.reverse :: splitDotsAux [] t
    else splitDotsAux (c :: cur) t

/-- `String.prototype.split(".")` on a whole string. -/
def splitDots (s : String) : List String := splitDotsAux [] s.data

/-- `parseSemver`: split the coerced string on `.`, destructure the first
three components with `"0"` defaults, convert with `Number`. -/
def parseSemver (v : String) : Nat × Nat × Nat :=
  match splitDots (coerceSemver v) with
  | [] => (0, 0, 0)
  | [a] => (jsNum a, 0, 0)
  | [a, b] => (jsNum a, jsNum b, 0)
  | a :: b :: c :: _ => (jsNum a, jsNum b, jsNum c)

/-- `compareSemver`: the three-iteration comparison loop, unrolled. -/
def compareSemver (a b : String) : Int :=
  if (parseSemver a).1 > (parseSemver b).1 then 1
  else if (parseSemver a).1 < (parseSemver b).1 then -1
  else if (parseSemver a).2.1 > (parseSemver b).2.1 then 1
  else if (parseSemver a).2.1 < (parseSemver b).2.1 then -1
  else if (parseSemver a).2.2 > (parseSemver b).2.2 then 1
  else if (parseSemver a).2.2 < (parseSemver b).2.2 then -1
  else 0

/-- `diffType` from utils/versionCheck.js. -/
def diffType (scanned latest : String) : String :=
  if (parseSemver latest).1 > (parseSemver scanned).1 then "major"
  else if (parseSemver latest).1 = (parseSemver scanned).1 ∧
      (parseSemver latest).2.1 > (parseSemver scanned).2.1 then "minor"
  else if (parseSemver latest).1 = (parseSemver scanned).1 ∧
      (parseSemver latest).2.1 = (parseSemver scanned).2.1 ∧
      (parseSemver latest).2.2 > (parseSemver scanned).2.2 then "patch"
  else "none"

/-- Result record of `determineIfLatestVersion`. -/
structure VerResult where
  name : String
  scannedVersion : String
  latest : String
  isLatest : Bool
  isOutdated : Bool
  diff : String
deriving DecidableEq, Repr

/-- `determineIfLatestVersion` from utils/versionCheck.js.  The registry
interaction is the `registry` parameter: `.error ()` models the `curl`
`exec` rejecting (the function then throws, i.e. returns `.error`);
`.ok none` models a response whose JSON fails to parse or carries no
version field (the code keeps the `"0.0.0"` default); `.ok (some s)`
models a parsed response with latest version `s`. -/
def determineIfLatestVersion (registry : Except Unit (Option String))
    (depName scannedVersion : String) : Except Unit VerResult :=
  match registry with
  | .error e => .error e
  | .ok meta =>
    let latest := meta.getD "0.0.0"
    let scanned := coerceSemver scannedVersion
    let cmp := compareSemver scanned latest
    .ok { name := depName, scannedVersion := scanned, latest := latest,
          isLatest := cmp == 0, isOutdated := decide (cmp < 0),
          diff := if cmp < 0 then diffType scanned latest else "none" }

/-- Strict lexicographic order on parsed version triples (the notion of
"the scanned version is older than the latest" used to state claims). -/
def semverLt (x y : Nat × Nat × Nat) : Prop :=
  x.1 < y.1 ∨ (x.1 = y.1 ∧ (x.2.1 < y.2.1 ∨ (x.2.1 = y.2.1 ∧ x.2.2 < y.2.2)))

instance (x y : Nat × Nat × Nat) : Decidable (semverLt x y) := by
  unfold semverLt; infer_instance

instance {ε α : Type} [DecidableEq ε] [DecidableEq α] :
    DecidableEq (Except ε α) := fun
  | .error a, .error b =>
    if h : a = b then .isTrue (by rw [h]) else .isFalse (by simp [h])
  | .error _, .ok _ => .isFalse (by simp)
  | .ok _, .error _ => .isFalse (by simp)
  | .ok a, .ok b =>
    if h : a = b then .isTrue (by rw [h]) else .isFalse (by simp [h])

/-! ## StaticDetector: `detectLibraries` in scanner.js -/

/-- The fixed catalog of known library names in `detectLibraries`. -/
def knownLibNames : List String :=
  ["jquery", "react", "react-dom", "vue", "angular", "ember", "bootstrap",
   "foundation", "uikit", "bulma", "lodash", "underscore", "moment",
   "dayjs", "rxjs", "d3", "chart.js", "highcharts", "three.js", "leaflet",
   "axios"]

/-- Greedy `(\.\d+)*`, fuel-indexed: each iteration consumes a dot plus a
maximal nonempty digit run, i.e. at least two characters, so
`fuel = cs.length` makes `dotGroups` exact for the unbounded regex tail
`(?:\.\d+)+` of `detectLibraries` (minus the first mandatory group, which
`matchVersion` checks separately). -/
def dotGroupsF : Nat → List Char → List Char
  | 0, _ => []
  | fuel+1, cs =>
    match cs with
    | a :: b :: rest =>
      if a = '.' ∧ b.isDigit then
        '.' :: ((b :: rest).takeWhile Char.isDigit)
          ++ dotGroupsF fuel ((b :: rest).dropWhile Char.isDigit)
      else []
    | _ => []

/-- Greedy `(\.\d+)*` with always-sufficient fuel. -/
def dotGroups (cs : List Char) : List Char := dotGroupsF cs.length cs

/-- The capture group `(\d+(?:\.\d+)+)` of the `detectLibraries` regex,
anchored at the start of `cs`: a maximal digit run followed by at least
one greedy `.digits` group, or no match. -/
def matchVersion (cs : List Char) : Option String :=
  match cs with
  | [] => none
  | c :: rest =>
    if c.isDigit then
      if (dotGroups ((c :: rest).dropWhile Char.isDigit)).isEmpty then none
      else some (String.mk ((c :: rest).takeWhile Char.isDigit
        ++ dotGroups ((c :: rest).dropWhile Char.isDigit)))
    else none

/-- Match `name[-.]?(\d+(?:\.\d+)+)` anchored at the start of `s` (both
already lowercased): the literal escaped name, an optional single `-` or
`.` (tried greedily, with regex backtracking to the empty alternative),
then the version capture. -/
def matchLibAt (name s : List Char) : Option String :=
  if listStarts name s then
    match s.drop name.length with
    | [] => none
    | c :: r =>
      if c = '-' ∨ c = '.' then
        match matchVersion r with
        | some v => some v
        | none => matchVersion (c :: r)
      else matchVersion (c :: r)
  else none

/-- Leftmost match of the `detectLibraries` regex over the whole string:
try every start position from the left, as the regex engine does. -/
def findLibMatch (name : List Char) : List Char → Option String
  | [] => none
  | c :: t =>
    match matchLibAt name (c :: t) with
    | some v => some v
    | none => findLibMatch name t

/-- A library candidate as produced by the detectors (`name`, `version`,
`source`); the deduplicator reads exactly these three fields. -/
structure Lib where
  name : String
  version : String
  source : String
deriving DecidableEq, Repr

/-- `detectLibraries` from scanner.js: for every script URL and every
catalog name, test `new RegExp(escapedName + "[-.]?(\\d+(?:\\.\\d+)+)", "i")`
against the URL; on a match push a candidate whose version is the capture
group (`match` is never null once `test` succeeded, so the `"unknown"`
arm of `match ? match[1] : "unknown"` is unreachable) and whose name is
the catalog name capitalized. -/
def detectLibraries (scripts : List String) : List Lib :=
  scripts.flatMap fun script =>
    knownLibNames.filterMap fun lib =>
      match findLibMatch (lowerStr lib).data (lowerStr script).data with
      | some v => some { name := capitalize lib, version := v, source := script }
      | none => none

/-! ## Deduplicator: `dedupeLibs` in scanner.js -/

/-- Lowercased grouping key `key(n) = n.name.toLowerCase()`. -/
def dkey (l : Lib) : String := lowerStr l.name

/-- `haveVer(x) = x.version && x.version !== "unknown"` (a falsy —
i.e. empty — version string also counts as absent). -/
def haveVer (l : Lib) : Prop := l.version ≠ "" ∧ l.version ≠ "unknown"

instance (l : Lib) : Decidable (haveVer l) := by unfold haveVer; infer_instance

/-- JavaScript `Map.prototype.set`: replace in place if the key exists
(keeping its original insertion position), otherwise append. -/
def mapSet {α : Type} (m : List (String × α)) (k : String) (v : α) :
    List (String × α) :=
  match m with
  | [] => [(k, v)]
  | (k', v') :: rest =>
    if k' = k then (k, v) :: rest else (k', v') :: mapSet rest k v

/-- JavaScript `Map.prototype.get`. -/
def mapGet {α : Type} : List (String × α) → String → Option α
  | [], _ => none
  | (k', v') :: rest, k => if k' = k then some v' else mapGet rest k

/-- One iteration of the `dedupeLibs` loop. -/
def dedupeStep (m : List (String × Lib)) (lib : Lib) : List (String × Lib) :=
  match mapGet m (dkey lib) with
  | none => mapSet m (dkey lib) lib
  | some ex =>
    if ¬ haveVer ex ∧ haveVer lib then mapSet m (dkey lib) lib
    else if ex.source ≠ "runtime" ∧ lib.source = "runtime" then
      mapSet m (dkey lib) lib
    else m

/-- `dedupeLibs` from scanner.js: fold the candidates through an
insertion-ordered map and return its values. -/
def dedupeLibs (libs : List Lib) : List Lib :=
  (libs.foldl dedupeStep []).map (·.2)

/-- Modelled from the spec's words (§4.4 / C7), for comparison with
`dedupeLibs`: same insertion-ordered fold, but rule (1) replaces exactly
when the retained version is the sentinel `"unknown"` and the incoming
one is concrete. -/
def dedupeSpecStep (m : List (String × Lib)) (lib : Lib) : List (String × Lib) :=
  match mapGet m (dkey lib) with
  | none => mapSet m (dkey lib) lib
  | some ex =>
    if ex.version = "unknown" ∧ lib.version ≠ "unknown" then
      mapSet m (dkey lib) lib
    else if ex.source ≠ "runtime" ∧ lib.source = "runtime" then
      mapSet m (dkey lib) lib
    else m

/-- Modelled from the spec's words (§4.4 / C7): the deduplicator as the
spec states it. -/
def dedupeSpec (libs : List Lib) : List Lib :=
  (libs.foldl dedupeSpecStep []).map (·.2)

/-! ## VulnerabilityResolver: utils/osv.js and utils/vulnCheck.js -/

/-- One entry of an OSV advisory's `severity` array.  `parseFloat` of the
score (taking the part after the last `/`) is abstracted to the rational
value `score`; `none` models a missing/NaN score. -/
structure SevEntry where
  stype : String
  score : Option ℚ
deriving DecidableEq, Repr

/-- A parsed OSV advisory record as delivered by the OSV API: id,
aliases, severity entries, summary, details, affected package names. -/
structure OsvRecord where
  id : String
  aliases : List String
  summary : String
  details : String
  severity : List SevEntry
  affectedPkgs : List String
deriving DecidableEq, Repr

/-- The reduced vulnerability object built by `queryOsvNpmVulns` in
utils/osv.js.  Note: it has no `aliases` field — the mapping in osv.js
keeps only `id`, `summary`, `severity` and `affected`. -/
structure OsvOut where
  id : String
  summary : String
  severity : String
  affected : List String
deriving DecidableEq, Repr

/-- `highestCvss` from utils/osv.js: highest CVSS v3/v4 numeric score
with its scheme; strict `>` keeps the earlier entry on ties. -/
def highestCvss (entries : List SevEntry) : Option (String × ℚ) :=
  entries.foldl
    (fun best s =>
      if s.stype = "CVSS_V3" ∨ s.stype = "CVSS_V4" then
        match s.score with
        | some sc =>
          match best with
          | none => some (s.stype, sc)
          | some (t, bs) => if sc > bs then some (s.stype, sc) else some (t, bs)
        | none => best
      else best)
    none

/-- The per-record mapping of `queryOsvNpmVulns`: `v.summary || v.details
|| ""`, severity string from `highestCvss` with the
`v.severity?.[0]?.type || "UNKNOWN"` fallback, and — crucially — no
`aliases` field in the output. -/
def mapOsvRecord (v : OsvRecord) : OsvOut :=
  { id := v.id,
    summary := if v.summary ≠ "" then v.summary else v.details,
    severity :=
      match highestCvss v.severity with
      | some (t, sc) => t ++ ":" ++ toString sc
      | none =>
        match v.severity.head? with
        | some e => if e.stype ≠ "" then e.stype else "UNKNOWN"
        | none => "UNKNOWN",
    affected := v.affectedPkgs }

/-- `queryOsvNpmVulns` from utils/osv.js.  The OSV interaction is the
`osv` parameter: `.error ()` models the `curl` `exec` rejecting (the
function then throws); `.ok records` models a response whose JSON parsed
to these advisory records (an unparseable body is `.ok []`, the code's
`data = { vulns: [] }` fallback).  The package name and version only
shape the request body, which is outside the embedding. -/
def queryOsvNpmVulns (osv : Except Unit (List OsvRecord))
    (_pkgName _version : String) : Except Unit (List OsvOut) :=
  osv.map (List.map mapOsvRecord)

/-- Result record of `determineVulnerabilities` (utils/vulnCheck.js). -/
structure VulnResult where
  name : String
  version : String
  vulnCount : Nat
  vulns : List OsvOut
deriving DecidableEq, Repr

/-- `determineVulnerabilities` from utils/vulnCheck.js: lowercase the
name, query OSV, count all matches and keep the first five. -/
def determineVulnerabilities (osv : Except Unit (List OsvRecord))
    (depName scannedVersion : String) : Except Unit VulnResult :=
  match queryOsvNpmVulns osv (lowerStr depName) scannedVersion with
  | .error e => .error e
  | .ok vulns =>
    .ok { name := depName, version := scannedVersion,
          vulnCount := vulns.length, vulns := vulns.take 5 }

/-! ## Enricher: `enrichLib` and the fan-out in `scan` (scanner.js) -/

/-- A vulnerability as reported by `enrichLib`. -/
structure ReportVuln where
  id : String
  cves : List String
  severity : String
  summary : String
deriving DecidableEq, Repr

/-- `enrichLib`'s per-vulnerability mapping.  The JavaScript is
`id: (x.aliases || []).find(a => a.startsWith("CVE-")) || x.id` and
`cves: (x.aliases || []).filter(a => a.startsWith("CVE-"))`, but `x` is
an `OsvOut` built by `queryOsvNpmVulns`, which carries no `aliases`
property: `x.aliases` is `undefined`, so the alias list is always `[]`,
`find` yields `undefined`, the id falls back to `x.id`, and the CVE list
is always empty. -/
def toReportVuln (x : OsvOut) : ReportVuln :=
  { id := x.id, cves := [], severity := x.severity, summary := x.summary }

/-- The `npmNameMap` alias table in scanner.js. -/
def npmNameMap (n : String) : Option String :=
  if n = "jquery" then some "jquery"
  else if n = "angular" then some "@angular/core"
  else if n = "angularjs" then some "angular"
  else if n = "react" then some "react"
  else if n = "react-dom" then some "react-dom"
  else if n = "vue" then some "vue"
  else if n = "lodash" then some "lodash"
  else if n = "chart.js" then some "chart.js"
  else if n = "bootstrap" then some "bootstrap"
  else none

/-- `toNpm(n) = npmNameMap[n.toLowerCase()] ?? n.toLowerCase()`. -/
def toNpm (n : String) : String := (npmNameMap (lowerStr n)).getD (lowerStr n)

/-- The enriched library record returned by `enrichLib`
(`{ ...lib, npm, latest, outdated, diff, vulnCount, vulns }`). -/
structure Enriched where
  name : String
  version : String
  source : String
  npm : String
  latest : Option String
  outdated : Option Bool
  diff : String
  vulnCount : Option Nat
  vulns : List ReportVuln
deriving DecidableEq, Repr

/-- `enrichLib` from scanner.js: resolve the npm name, then run the two
resolvers each inside its own `try`; a rejection leaves the corresponding
fields at `null` / `"unknown"` / `[]`. -/
def enrichLib (registry : Except Unit (Option String))
    (osv : Except Unit (List OsvRecord)) (lib : Lib) : Enriched :=
  let pkg := toNpm lib.name
  let verPart :=
    match determineIfLatestVersion registry pkg lib.version with
    | .ok r => (some r.latest, some r.isOutdated, r.diff)
    | .error _ => (none, none, "unknown")
  let vulnPart :=
    match determineVulnerabilities osv pkg lib.version with
    | .ok v => (some v.vulnCount, (v.vulns.take 5).map toReportVuln)
    | .error _ => (none, [])
  { name := lib.name, version := lib.version, source := lib.source,
    npm := pkg, latest := verPart.1, outdated := verPart.2.1,
    diff := verPart.2.2, vulnCount := vulnPart.1, vulns := vulnPart.2 }

/-- The ambient behaviour of one library's enrichment in `scan`: the two
network interactions, plus whether the surrounding
`withTimeout(p, 4000)` race rejected first.  `enrichLib` catches both of
its calls' rejections, so its promise never rejects on its own and the
race rejects exactly when the 4-second timer fires. -/
structure EnrichEnv where
  registry : Except Unit (Option String)
  osv : Except Unit (List OsvRecord)
  timedOut : Bool

/-- The enrichment fan-out of `scan` (scanner.js):
`Promise.all(libs.map(enrichLib).map(p => withTimeout(p, 4000)).map(p => p.catch(() => null)))`
followed by `filter(Boolean)`.  A timed-out promise becomes `null`
(`none`) and `filter(Boolean)` (`reduceOption`) removes it. -/
def scanLibraries (env : Lib → EnrichEnv) (libs : List Lib) : List Enriched :=
  (libs.map fun l =>
    if (env l).timedOut then none
    else some (enrichLib (env l).registry (env l).osv l)).reduceOption

/-! ## RuntimeDetector: utils/runtimeDetect.js -/

/-- Result of `runtimeDetect`: the detected libraries and the page's JS
resource URLs. -/
structure RtResult where
  libs : List Lib
  jsUrls : List String
deriving DecidableEq, Repr

/-- The ambient behaviour of one headless-browser session, step by step
(in the order the code awaits them).  `gotoOk` and `waitOk` are the
navigation / settle steps whose rejections the code catches inline;
`evalMap` / `evalUrls` are the two `page.evaluate` calls (`none` = the
promise rejected, which `.catch` turns into `{}` / `[]`). -/
structure RtEnv where
  launchOk : Bool
  newPageOk : Bool
  interceptOk : Bool
  uaOk : Bool
  gotoOk : Bool
  waitOk : Bool
  evalMap : Option (List (String × String))
  evalUrls : Option (List String)

/-- Outcome of `runtimeDetect`: its return-or-throw, whether a browser
was launched, and whether `browser.close()` was reached. -/
structure RtOutcome where
  result : Except Unit RtResult
  launched : Bool
  closed : Bool
deriving DecidableEq, Repr

/-- `runtimeDetect` from utils/runtimeDetect.js, as a sequence of awaited
steps.  `puppeteer.launch`, `browser.newPage()`,
`page.setRequestInterception(true)` and `page.setUserAgent(...)` are
awaited with no surrounding `try`, so their rejections propagate;
`page.goto` and `page.waitForTimeout` are inside `try {} catch {}`; both
`page.evaluate` calls carry `.catch` fallbacks (`{}` and `[]`);
`browser.close()` is the next statement after them — there is no
`finally`. -/
def runtimeDetect (env : RtEnv) : RtOutcome :=
  if ¬ env.launchOk then { result := .error (), launched := false, closed := false }
  else if ¬ env.newPageOk then { result := .error (), launched := true, closed := false }
  else if ¬ env.interceptOk then { result := .error (), launched := true, closed := false }
  else if ¬ env.uaOk then { result := .error (), launched := true, closed := false }
  else
    -- goto / settle rejections are swallowed; env.gotoOk, env.waitOk are
    -- irrelevant from here on.
    let runtimeMap := env.evalMap.getD []
    let jsUrls := env.evalUrls.getD []
    { result := .ok
        { libs := runtimeMap.map fun p =>
            { name := p.1, version := p.2, source := "runtime" },
          jsUrls := jsUrls },
      launched := true, closed := true }

/-! ## SignatureDetector: utils/retireDetect.js -/

/-- A signature-database regex, abstracted to its observable behaviour on
one input: `none` = no match; `some none` = match whose capture groups
hold no dotted numeric token; `some (some v)` = match from whose capture
groups the reverse scan extracts the dotted token `v`. -/
def Pat : Type := String → Option (Option String)

/-- One `knownVulnerabilities` entry carried by a detector (built from
the signature repo; `retireDetect` copies these fields through). -/
structure RetireVuln where
  identifiers : List String
  info : List String
  below : Option String
  atOrAbove : Option String
  severity : Option String
deriving DecidableEq, Repr

/-- One entry of the `DETECTORS` list built from the signature repo. -/
structure Detector where
  libName : String
  files : List Pat
  contents : List Pat
  vulns : List RetireVuln

/-- A raw hit pushed by `detectWithRetire`. -/
structure RetireHit where
  name : String
  version : String
  source : String
  url : String
  retireVulns : List RetireVuln
deriving DecidableEq, Repr

/-- `extractVersionFromUrl`: first filename pattern that matches with a
dotted token among its capture groups; a pattern that matches without a
token is skipped, like the code's `if (g) return` falling through. -/
def extractVersionFromUrl (u : String) : List Pat → Option String
  | [] => none
  | p :: ps =>
    match p u with
    | some (some v) => some v
    | _ => extractVersionFromUrl u ps

/-- The content-pattern loop of `detectWithRetire`: any match sets
`contentHit`; the first match carrying a version token also sets the
version and breaks. -/
def contentScan : List Pat → String → Bool × Option String
  | [], _ => (false, none)
  | p :: ps, text =>
    match p text with
    | none => contentScan ps text
    | some (some v) => (true, some v)
    | some none => (true, (contentScan ps text).2)

/-- The JS local `fileHit = det.files.some(rx => rx.test(u))`. -/
def detFileHit (det : Detector) (u : String) : Bool :=
  det.files.any fun p => (p u).isSome

/-- The JS local `version` right after the filename phase
(`fileHit ? extractVersionFromUrl(u, det.files) : null`). -/
def detV0 (det : Detector) (u : String) : Option String :=
  if detFileHit det u then extractVersionFromUrl u det.files else none

/-- The content phase of one (candidate, detector) iteration: it runs
only when no version was resolved and content fetching is enabled; a
failed fetch (`fetch u = none`, covering rejections and the 7-second
timeout) is swallowed by the inner `try` and leaves no content hit.
Returns the JS locals `(contentHit, version)` after the phase. -/
def detCv (fetch : String → Option String) (fetchContent : Bool)
    (u : String) (det : Detector) : Bool × Option String :=
  if (detV0 det u).isNone ∧ fetchContent then
    match fetch u with
    | none => (false, detV0 det u)
    | some text => contentScan det.contents text
  else (false, detV0 det u)

/-- One (candidate URL, detector) iteration of `detectWithRetire`:
filename patterns first, then the optional content phase, then the
`if (fileHit || contentHit)` push. -/
def detHit (fetch : String → Option String) (fetchContent : Bool)
    (u : String) (det : Detector) : List RetireHit :=
  if detFileHit det u ∨ (detCv fetch fetchContent u det).1 then
    [{ name := det.libName,
       version := (detCv fetch fetchContent u det).2.getD "unknown",
       source := if detFileHit det u then "retire-url" else "retire-content",
       url := u, retireVulns := det.vulns }]
  else []

/-- First-occurrence deduplication, modelling `Array.from(new Set(l))`. -/
def dedupFirst (seen : List String) : List String → List String
  | [] => []
  | x :: t =>
    if seen.contains x then dedupFirst seen t
    else x :: dedupFirst (x :: seen) t

/-- `/\.js(\?|$)/i` on a URL. -/
def isJsUrl (u : String) : Bool :=
  containsSub (lowerStr u).data ".js?".data ||
    listStarts (lowerStr u).data.reverse "sj.".data

/-- The bundle-name keywords of the candidate filter. -/
def bundleKeywords : List String :=
  ["main", "vendor", "bundle", "app", "runtime", "polyfills", "chunk", "client"]

/-- The second candidate filter: a bundle keyword occurs in the URL
(case-insensitively) or the URL is shorter than 200 characters. -/
def isLikelyBundle (u : String) : Bool :=
  bundleKeywords.any (fun k => containsSub (lowerStr u).data k.data) ||
    u.length < 200

/-- Candidate selection of `detectWithRetire`: dedupe, keep JS URLs,
keep likely bundles, take at most `MAX_FILES = 6`. -/
def selectCandidates (urls : List String) : List String :=
  (((dedupFirst [] urls).filter isJsUrl).filter isLikelyBundle).take 6

/-- All hits of one candidate URL (the inner detector loop). -/
def candidateHits (dets : List Detector) (fetch : String → Option String)
    (fetchContent : Bool) (u : String) : List RetireHit :=
  dets.flatMap (detHit fetch fetchContent u)

/-- All raw hits of `detectWithRetire` before its final dedupe step. -/
def rawHits (dets : List Detector) (fetch : String → Option String)
    (fetchContent : Bool) (urls : List String) : List RetireHit :=
  (selectCandidates urls).flatMap (candidateHits dets fetch fetchContent)

/-- One iteration of the final `(name, version)` dedupe of
`detectWithRetire` (key `name ++ "::" ++ version`; since equal keys imply
equal versions, the prefer-concrete branch never actually fires). -/
def retireDedupeStep (m : List (String × RetireHit)) (r : RetireHit) :
    List (String × RetireHit) :=
  match mapGet m (r.name ++ "::" ++ r.version) with
  | none => mapSet m (r.name ++ "::" ++ r.version) r
  | some ex =>
    if ex.version = "unknown" ∧ r.version ≠ "unknown" then
      mapSet m (r.name ++ "::" ++ r.version) r
    else m

/-- `detectWithRetire` from utils/retireDetect.js: candidate selection,
per-candidate detection, final dedupe.  The whole body sits in a `try`
whose `catch` returns `[]`; nothing in this model throws, and the
function always returns a list. -/
def detectWithRetire (dets : List Detector) (fetch : String → Option String)
    (fetchContent : Bool) (urls : List String) : List RetireHit :=
  ((rawHits dets fetch fetchContent urls).foldl retireDedupeStep []).map (·.2)

/-- Fixture: a filename pattern that matches the URL `u.js` but whose
capture groups carry no version token. -/
def wPatFile : Pat := fun s => if s = "u.js" then some none else none

/-- Fixture: a content pattern that always matches with version token
`9.9.9`. -/
def wPatContent : Pat := fun _ => some (some "9.9.9")

/-- Fixture: one signature detector built from the two patterns above. -/
def wDet0 : Detector :=
  { libName := "jquery", files := [wPatFile], contents := [wPatContent],
    vulns := [] }

/-- Fixture: a fetch that always fails (rejection or timeout). -/
def wFetch : String → Option String := fun _ => none

/-- Fixture: an OSV advisory whose database-native id is a GHSA id and
whose aliases carry a CVE id (the shape of real jQuery advisories). -/
def osvCve : OsvRecord :=
  { id := "GHSA-gxr4-xjj5-5px2", aliases := ["CVE-2020-11022"],
    summary := "XSS in jQuery", details := "", severity := [],
    affectedPkgs := ["jquery"] }

/-! ## Lemmas about the version comparison -/

theorem parseSemver_zero : parseSemver "0.0.0" = (0, 0, 0) := by decide

theorem compareSemver_eq_zero_iff (a b : String) :
    compareSemver a b = 0 ↔ parseSemver a = parseSemver b := by
  rcases hpa : parseSemver a with ⟨a1, a2, a3⟩
  rcases hpb : parseSemver b with ⟨b1, b2, b3⟩
  simp only [compareSemver, hpa, hpb]
  split_ifs <;> simp [Prod.ext_iff] <;> omega

theorem compareSemver_neg_iff (a b : String) :
    compareSemver a b < 0 ↔ semverLt (parseSemver a) (parseSemver b) := by
  rcases hpa : parseSemver a with ⟨a1, a2, a3⟩
  rcases hpb : parseSemver b with ⟨b1, b2, b3⟩
  simp only [compareSemver, semverLt, hpa, hpb]
  split_ifs <;> simp <;> omega

theorem compareSemver_zero_right (a : String) :
    ¬ compareSemver a "0.0.0" < 0 := by
  rw [compareSemver_neg_iff, parseSemver_zero]
  rcases parseSemver a with ⟨a1, a2, a3⟩
  simp [semverLt]

theorem takeWhile_digits_append (ds t : List Char)
    (hds : ∀ c ∈ ds, c.isDigit = true)
    (ht : ∀ c, t.head? = some c → c.isDigit = false) :
    (ds ++ t).takeWhile Char.isDigit = ds ∧
      (ds ++ t).dropWhile Char.isDigit = t := by
  induction ds with
  | nil =>
    simp only [List.nil_append]
    cases t with
    | nil => simp
    | cons c r =>
      have hc := ht c rfl
      simp [List.takeWhile_cons, List.dropWhile_cons, hc]
  | cons d ds ih =>
    have hd := hds d (by simp)
    obtain ⟨h1, h2⟩ := ih fun c hc => hds c (by simp [hc])
    simp [List.takeWhile_cons, List.dropWhile_cons, hd, h1, h2]

theorem dotGroupsN_head_not_digit (k : Nat) (cs : List Char) :
    ∀ c, (dotGroupsN k cs).head? = some c → c.isDigit = false := by
  intro c hc
  match k, cs with
  | 0, _ => simp [dotGroupsN] at hc
  | k+1, [] => simp [dotGroupsN] at hc
  | k+1, [a] => simp [dotGroupsN] at hc
  | k+1, a :: b :: rest =>
    rw [dotGroupsN] at hc
    split_ifs at hc with h
    · simp at hc
      rw [← hc]; decide
    · simp at hc

theorem dotGroupsN_idem (k : Nat) :
    ∀ cs, dotGroupsN k (dotGroupsN k cs) = dotGroupsN k cs := by
  induction k with
  | zero => intro cs; simp [dotGroupsN]
  | succ k ih =>
    intro cs
    match cs with
    | [] => rfl
    | [a] => rfl
    | a :: b :: rest =>
      by_cases h : a = '.' ∧ b.isDigit
      · obtain ⟨ha, hb⟩ := h
        subst ha
        have hstep : dotGroupsN (k+1) ('.' :: b :: rest)
            = '.' :: ((b :: rest).takeWhile Char.isDigit
              ++ dotGroupsN k ((b :: rest).dropWhile Char.isDigit)) := by
          rw [dotGroupsN]; simp [hb]
        have htw : (b :: rest).takeWhile Char.isDigit
            = b :: rest.takeWhile Char.isDigit := by
          simp [List.takeWhile_cons, hb]
        obtain ⟨h1, h2⟩ := takeWhile_digits_append
          ((b :: rest).takeWhile Char.isDigit)
          (dotGroupsN k ((b :: rest).dropWhile Char.isDigit))
          (fun c hc => List.mem_takeWhile_imp hc)
          (dotGroupsN_head_not_digit k _)
        rw [hstep]
        have hcons : '.' :: ((b :: rest).takeWhile Char.isDigit
              ++ dotGroupsN k ((b :: rest).dropWhile Char.isDigit))
            = '.' :: b :: (rest.takeWhile Char.isDigit
              ++ dotGroupsN k ((b :: rest).dropWhile Char.isDigit)) := by
          rw [htw]; rfl
        have hstep2 : dotGroupsN (k+1) ('.' :: ((b :: rest).takeWhile Char.isDigit
              ++ dotGroupsN k ((b :: rest).dropWhile Char.isDigit)))
            = '.' :: ((b :: (rest.takeWhile Char.isDigit
                ++ dotGroupsN k ((b :: rest).dropWhile Char.isDigit))).takeWhile Char.isDigit
              ++ dotGroupsN k ((b :: (rest.takeWhile Char.isDigit
                ++ dotGroupsN k ((b :: rest).dropWhile Char.isDigit))).dropWhile Char.isDigit)) := by
          rw [hcons, dotGroupsN]; simp [hb]
        rw [hstep2]
        have hback : (b :: (rest.takeWhile Char.isDigit
              ++ dotGroupsN k ((b :: rest).dropWhile Char.isDigit)))
            = (b :: rest).takeWhile Char.isDigit
              ++ dotGroupsN k ((b :: rest).dropWhile Char.isDigit) := by
          rw [htw]; rfl
        rw [hback, h1, h2, ih]
      · have hstep : dotGroupsN (k+1) (a :: b :: rest) = [] := by
          rw [dotGroupsN]; simp [h]
        rw [hstep]
        rfl

theorem semverMatch_eq_some (cs : List Char) :
    ∀ m, semverMatch cs = some m →
      ∃ c rest, c.isDigit = true ∧
        m = (c :: rest).takeWhile Char.isDigit
          ++ dotGroupsN 3 ((c :: rest).dropWhile Char.isDigit) := by
  induction cs with
  | nil => intro m h; simp [semverMatch] at h
  | cons c rest ih =>
    intro m h
    rw [semverMatch] at h
    split_ifs at h with hc
    · simp at h
      exact ⟨c, rest, hc, h.symm⟩
    · exact ih m h

theorem semverMatch_self (cs m : List Char) (h : semverMatch cs = some m) :
    semverMatch m = some m := by
  obtain ⟨c, rest, hc, hm⟩ := semverMatch_eq_some cs m h
  have htw : (c :: rest).takeWhile Char.isDigit
      = c :: rest.takeWhile Char.isDigit := by
    simp [List.takeWhile_cons, hc]
  obtain ⟨h1, h2⟩ := takeWhile_digits_append
    ((c :: rest).takeWhile Char.isDigit)
    (dotGroupsN 3 ((c :: rest).dropWhile Char.isDigit))
    (fun x hx => List.mem_takeWhile_imp hx)
    (dotGroupsN_head_not_digit 3 _)
  have hm' : m = c :: (rest.takeWhile Char.isDigit
      ++ dotGroupsN 3 ((c :: rest).dropWhile Char.isDigit)) := by
    rw [hm, htw]; rfl
  rw [hm', semverMatch]
  rw [if_pos hc]
  have hback : (c :: (rest.takeWhile Char.isDigit
        ++ dotGroupsN 3 ((c :: rest).dropWhile Char.isDigit)))
      = (c :: rest).takeWhile Char.isDigit
        ++ dotGroupsN 3 ((c :: rest).dropWhile Char.isDigit) := by
    rw [htw]; rfl
  rw [hback, h1, h2, dotGroupsN_idem, ← hm]

theorem coerceSemver_idem (v : String) :
    coerceSemver (coerceSemver v) = coerceSemver v := by
  cases h : semverMatch v.data with
  | none =>
    have h1 : coerceSemver v = "0.0.0" := by unfold coerceSemver; rw [h]
    rw [h1]; decide
  | some m =>
    have h1 : coerceSemver v = String.mk m := by unfold coerceSemver; rw [h]
    have h2 : semverMatch (String.mk m).data = some m :=
      semverMatch_self v.data m h
    rw [h1]; unfold coerceSemver; rw [h2]

theorem parseSemver_coerce (v : String) :
    parseSemver (coerceSemver v) = parseSemver v := by
  unfold parseSemver
  rw [coerceSemver_idem]

/-! ## Claim C10 -/

/-- Claim C10: version comparison ignores any dotted component beyond the
third — whenever two version strings parse to the same (major, minor,
patch) triple, `compareSemver` returns `0` and version resolution reports
`isLatest = true`, `isOutdated = false`, `diff = "none"`. -/
theorem compare_ignores_fourth_component (a b n : String)
    (h : parseSemver a = parseSemver b) :
    compareSemver a b = 0 ∧
    (determineIfLatestVersion (.ok (some b)) n a).map VerResult.isLatest = .ok true ∧
    (determineIfLatestVersion (.ok (some b)) n a).map VerResult.isOutdated = .ok false ∧
    (determineIfLatestVersion (.ok (some b)) n a).map VerResult.diff = .ok "none" := by
  have hc : compareSemver a b = 0 := (compareSemver_eq_zero_iff a b).mpr h
  have hc2 : compareSemver (coerceSemver a) b = 0 := by
    rw [compareSemver_eq_zero_iff, parseSemver_coerce]; exact h
  refine ⟨hc, ?_, ?_, ?_⟩ <;>
    simp [determineIfLatestVersion, Except.map, hc2]

/-- Witness for C10 at the claim's own example: `"1.2.3.4"` and
`"1.2.3.9"` share their first three components and compare equal. -/
theorem compare_ignores_fourth_component_witness :
    parseSemver "1.2.3.4" = parseSemver "1.2.3.9" ∧
    compareSemver "1.2.3.4" "1.2.3.9" = 0 :=
  ⟨by decide,
   (compare_ignores_fourth_component "1.2.3.4" "1.2.3.9" "jquery" (by decide)).1⟩

/-! ## Claim C2 -/

/-- Claim C2 counterexample: a candidate whose version is the sentinel
`"unknown"` IS compared against the registry's latest version — the
sentinel is coerced to `"0.0.0"` and the comparison proceeds, reporting
the candidate outdated with a `"major"` diff. -/
theorem unknown_version_reported_outdated :
    determineIfLatestVersion (.ok (some "3.0.0")) "jquery" "unknown"
      = .ok { name := "jquery", scannedVersion := "0.0.0", latest := "3.0.0",
              isLatest := false, isOutdated := true, diff := "major" } := by
  decide

/-- Claim C2 (amended): the sentinel `"unknown"` is never parsed for
numeric content of its own — `coerceSemver` maps it to the parse-failure
default `"0.0.0"` — but version resolution then compares that default
against the registry's latest version, reporting `isOutdated` exactly
when the latest parses above `(0, 0, 0)`. -/
theorem unknown_version_coerced_to_zero (n L : String) :
    coerceSemver "unknown" = "0.0.0" ∧
    (determineIfLatestVersion (.ok (some L)) n "unknown").map
      VerResult.scannedVersion = .ok "0.0.0" ∧
    (determineIfLatestVersion (.ok (some L)) n "unknown").map
      VerResult.isOutdated = .ok (decide (semverLt (0, 0, 0) (parseSemver L))) := by
  have hcoe : coerceSemver "unknown" = "0.0.0" := by decide
  have hiff : compareSemver "0.0.0" L < 0 ↔ semverLt (0, 0, 0) (parseSemver L) := by
    rw [compareSemver_neg_iff, parseSemver_zero]
  refine ⟨hcoe, ?_, ?_⟩
  · simp [determineIfLatestVersion, Except.map, hcoe]
  · simp [determineIfLatestVersion, Except.map, hcoe]
    exact hiff

/-! ## Claim C3 -/

/-- Claim C3 counterexample: a malformed (unparseable) registry response
does NOT yield `latest = null`, `isOutdated = null`, `diff = "unknown"` —
the code keeps the `"0.0.0"` default and reports `isOutdated = false`,
`diff = "none"`. -/
theorem malformed_registry_yields_defaults_not_null :
    determineIfLatestVersion (.ok none) "jquery" "3.5.1"
      = .ok { name := "jquery", scannedVersion := "3.5.1", latest := "0.0.0",
              isLatest := false, isOutdated := false, diff := "none" } := by
  decide

/-- Claim C3 (amended): a registry FETCH failure makes
`determineIfLatestVersion` itself throw; the enrichment layer catches it
and leaves `latest = null`, `isOutdated = null`, `diff = "unknown"`.  A
malformed registry RESPONSE does not throw and does not null the fields:
`latest` defaults to `"0.0.0"`, so `isOutdated = false` and
`diff = "none"` for every scanned version. -/
theorem registry_failure_modes (n v : String) (lib : Lib)
    (osv : Except Unit (List OsvRecord)) :
    determineIfLatestVersion (.error ()) n v = .error () ∧
    (enrichLib (.error ()) osv lib).latest = none ∧
    (enrichLib (.error ()) osv lib).outdated = none ∧
    (enrichLib (.error ()) osv lib).diff = "unknown" ∧
    (determineIfLatestVersion (.ok none) n v).map VerResult.latest = .ok "0.0.0" ∧
    (determineIfLatestVersion (.ok none) n v).map VerResult.isOutdated = .ok false ∧
    (determineIfLatestVersion (.ok none) n v).map VerResult.diff = .ok "none" := by
  have hnn : ¬ compareSemver (coerceSemver v) "0.0.0" < 0 :=
    compareSemver_zero_right _
  refine ⟨rfl, ?_, ?_, ?_, ?_, ?_, ?_⟩
  · cases osv <;> rfl
  · cases osv <;> rfl
  · cases osv <;> rfl
  · simp [determineIfLatestVersion, Except.map]
  · simp [determineIfLatestVersion, Except.map, hnn]
  · simp [determineIfLatestVersion, Except.map, hnn]

/-! ## Claim C1 -/

/-- Claim C1 counterexample: a library whose enrichment exceeds the
4-second budget is REMOVED from the report — the timed-out promise is
mapped to `null` and `filter(Boolean)` drops it. -/
theorem enrichment_timeout_drops_library :
    scanLibraries
      (fun _ => { registry := .ok (some "3.7.1"), osv := .ok [], timedOut := true })
      [{ name := "jquery", version := "3.0.0", source := "page.html" }] = [] := rfl

/-- Claim C1 (amended): a library whose version-resolution or
vulnerability CALL errors still appears, with the affected fields at
null/default, because `enrichLib` catches both calls; but a library whose
enrichment exceeds its 4-second budget is dropped from the report — the
final list is exactly the enrichment of the non-timed-out libraries, in
merged-list order. -/
theorem enrichment_keeps_errored_drops_timed_out
    (env : Lib → EnrichEnv) (libs : List Lib) :
    scanLibraries env libs
      = ((libs.filter fun l => !(env l).timedOut).map
          fun l => enrichLib (env l).registry (env l).osv l) ∧
    ∀ l : Lib, enrichLib (.error ()) (.error ()) l
      = { name := l.name, version := l.version, source := l.source,
          npm := toNpm l.name, latest := none, outdated := none,
          diff := "unknown", vulnCount := none, vulns := [] } := by
  constructor
  · induction libs with
    | nil => rfl
    | cons x t ih =>
      by_cases hx : (env x).timedOut <;>
        simp [scanLibraries, List.reduceOption, List.filter_cons, hx,
          List.filterMap_cons] <;>
        simpa [scanLibraries, List.reduceOption] using ih
  · intro l; rfl

/-! ## Claim C4 -/

/-- Claim C4 (code bug): `queryOsvNpmVulns` drops the OSV record's
`aliases`, so `enrichLib`'s CVE-alias preference is dead code — for an
advisory with native id `GHSA-gxr4-xjj5-5px2` and alias `CVE-2020-11022`,
the reported `id` is the GHSA id (not the CVE alias) and the reported CVE
list is empty (not the CVE aliases). -/
theorem vuln_report_loses_cve_aliases :
    osvCve.aliases.filter (fun a => strStarts "CVE-" a) = ["CVE-2020-11022"] ∧
    (enrichLib (.ok (some "3.7.1")) (.ok [osvCve])
        { name := "Jquery", version := "3.4.1", source := "u" }).vulns
      = [{ id := "GHSA-gxr4-xjj5-5px2", cves := [],
           severity := "UNKNOWN", summary := "XSS in jQuery" }] := by
  constructor
  · decide
  · rfl

/-! ## Claim C6 -/

/-- Claim C6 (code bug): `runtimeDetect` closes the browser after a
navigation or evaluation failure (those rejections are caught inline),
but a rejection of `browser.newPage()` — or of the request-interception
or user-agent setup — propagates with the browser still open: there is no
`finally`, so the session is NOT torn down on that exit path. -/
theorem runtime_detect_leaks_on_newpage_failure :
    runtimeDetect { launchOk := true, newPageOk := false, interceptOk := true,
                    uaOk := true, gotoOk := true, waitOk := true,
                    evalMap := some [], evalUrls := some [] }
      = { result := .error (), launched := true, closed := false } ∧
    (runtimeDetect { launchOk := true, newPageOk := true, interceptOk := true,
                     uaOk := true, gotoOk := false, waitOk := false,
                     evalMap := none, evalUrls := none })
      = { result := .ok { libs := [], jsUrls := [] }, launched := true,
          closed := true } := by
  constructor <;> rfl

/-! ## Lemmas about the insertion-ordered map and the deduplicator -/

theorem mapGet_mem {α : Type} :
    ∀ (m : List (String × α)) (k : String) (v : α),
      mapGet m k = some v → (k, v) ∈ m := by
  intro m
  induction m with
  | nil => intro k v h; simp [mapGet] at h
  | cons p rest ih =>
    intro k v h
    obtain ⟨k', v'⟩ := p
    rw [mapGet] at h
    split_ifs at h with he
    · simp at h
      subst he; subst h
      exact List.mem_cons_self _ _
    · exact List.mem_cons_of_mem _ (ih k v h)

theorem mem_mapSet {α : Type} :
    ∀ (m : List (String × α)) (k : String) (v : α) (p : String × α),
      p ∈ mapSet m k v → p = (k, v) ∨ p ∈ m := by
  intro m
  induction m with
  | nil =>
    intro k v p h
    simp [mapSet] at h
    left; exact h
  | cons q rest ih =>
    intro k v p h
    obtain ⟨k', v'⟩ := q
    rw [mapSet] at h
    split_ifs at h with he
    · rcases List.mem_cons.mp h with h1 | h1
      · left; exact h1
      · right; exact List.mem_cons_of_mem _ h1
    · rcases List.mem_cons.mp h with h1 | h1
      · right; rw [h1]; exact List.mem_cons_self _ _
      · rcases ih k v p h1 with h2 | h2
        · left; exact h2
        · right; exact List.mem_cons_of_mem _ h2

theorem mapSet_absent {α : Type} :
    ∀ (m : List (String × α)) (k : String) (v : α),
      mapGet m k = none → mapSet m k v = m ++ [(k, v)] := by
  intro m
  induction m with
  | nil => intro k v _; rfl
  | cons q rest ih =>
    intro k v h
    obtain ⟨k', v'⟩ := q
    rw [mapGet] at h
    split_ifs at h with he
    rw [mapSet, if_neg he, ih k v h]
    rfl

theorem mapGet_append_single {α : Type} :
    ∀ (m : List (String × α)) (k k₀ : String) (v₀ : α),
      mapGet m k = none → k ≠ k₀ → mapGet (m ++ [(k₀, v₀)]) k = none := by
  intro m
  induction m with
  | nil =>
    intro k k₀ v₀ _ hne
    rw [List.nil_append, mapGet]
    rw [if_neg (fun he => hne he.symm)]
    rfl
  | cons q rest ih =>
    intro k k₀ v₀ h hne
    obtain ⟨k', v'⟩ := q
    rw [mapGet] at h
    split_ifs at h with he
    rw [List.cons_append, mapGet, if_neg he]
    exact ih k k₀ v₀ h hne

theorem mapGet_some_key_mem {α : Type} :
    ∀ (m : List (String × α)) (k : String) (v : α),
      mapGet m k = some v → k ∈ m.map Prod.fst := by
  intro m k v h
  have := mapGet_mem m k v h
  exact List.mem_map_of_mem Prod.fst this

theorem keys_mapSet_mem {α : Type} :
    ∀ (m : List (String × α)) (k : String) (v : α),
      k ∈ m.map Prod.fst → (mapSet m k v).map Prod.fst = m.map Prod.fst := by
  intro m
  induction m with
  | nil => intro k v h; simp at h
  | cons q rest ih =>
    intro k v h
    obtain ⟨k', v'⟩ := q
    rw [mapSet]
    split_ifs with he
    · simp [he]
    · rw [List.map_cons, List.map_cons, ih k v]
      rw [List.map_cons] at h
      rcases List.mem_cons.mp h with h1 | h1
      · exact absurd h1.symm he
      · exact h1

theorem mapGet_none_not_key {α : Type} :
    ∀ (m : List (String × α)) (k : String),
      mapGet m k = none → k ∉ m.map Prod.fst := by
  intro m
  induction m with
  | nil => intro k _ hk; simp at hk
  | cons q rest ih =>
    intro k h hk
    obtain ⟨k', v'⟩ := q
    rw [mapGet] at h
    split_ifs at h with he
    rw [List.map_cons] at hk
    rcases List.mem_cons.mp hk with h1 | h1
    · exact he h1.symm
    · exact ih k h h1

theorem dedupeStep_eq_none (m : List (String × Lib)) (lib : Lib)
    (h : mapGet m (dkey lib) = none) :
    dedupeStep m lib = mapSet m (dkey lib) lib := by
  unfold dedupeStep; rw [h]

theorem dedupeStep_eq_some (m : List (String × Lib)) (lib ex : Lib)
    (h : mapGet m (dkey lib) = some ex) :
    dedupeStep m lib
      = if ¬ haveVer ex ∧ haveVer lib then mapSet m (dkey lib) lib
        else if ex.source ≠ "runtime" ∧ lib.source = "runtime" then
          mapSet m (dkey lib) lib
        else m := by
  unfold dedupeStep; rw [h]

theorem dedupeSpecStep_eq_none (m : List (String × Lib)) (lib : Lib)
    (h : mapGet m (dkey lib) = none) :
    dedupeSpecStep m lib = mapSet m (dkey lib) lib := by
  unfold dedupeSpecStep; rw [h]

theorem dedupeSpecStep_eq_some (m : List (String × Lib)) (lib ex : Lib)
    (h : mapGet m (dkey lib) = some ex) :
    dedupeSpecStep m lib
      = if ex.version = "unknown" ∧ lib.version ≠ "unknown" then
          mapSet m (dkey lib) lib
        else if ex.source ≠ "runtime" ∧ lib.source = "runtime" then
          mapSet m (dkey lib) lib
        else m := by
  unfold dedupeSpecStep; rw [h]

theorem dedupeStep_keys_nodup (m : List (String × Lib)) (lib : Lib)
    (h : (m.map Prod.fst).Nodup) :
    ((dedupeStep m lib).map Prod.fst).Nodup := by
  cases hg : mapGet m (dkey lib) with
  | none =>
    rw [dedupeStep_eq_none m lib hg, mapSet_absent m _ lib hg, List.map_append]
    rw [List.nodup_append]
    refine ⟨h, by simp, ?_⟩
    intro a ha hb
    simp at hb
    rw [hb] at ha
    exact mapGet_none_not_key m _ hg ha
  | some ex =>
    rw [dedupeStep_eq_some m lib ex hg]
    have hk := mapGet_some_key_mem m _ ex hg
    split_ifs with h1 h2
    · rw [keys_mapSet_mem m _ lib hk]; exact h
    · rw [keys_mapSet_mem m _ lib hk]; exact h
    · exact h

theorem dedupe_fold_keys_nodup :
    ∀ (libs : List Lib) (m : List (String × Lib)),
      (m.map Prod.fst).Nodup → ((libs.foldl dedupeStep m).map Prod.fst).Nodup := by
  intro libs
  induction libs with
  | nil => intro m h; exact h
  | cons c t ih =>
    intro m h
    rw [List.foldl_cons]
    exact ih _ (dedupeStep_keys_nodup m c h)

theorem dedupeStep_key_inv (m : List (String × Lib)) (c : Lib)
    (hm : ∀ p ∈ m, p.1 = dkey p.2) :
    ∀ p ∈ dedupeStep m c, p.1 = dkey p.2 := by
  intro p hp
  have hset : p ∈ mapSet m (dkey c) c → p.1 = dkey p.2 := fun hin => by
    rcases mem_mapSet m _ c p hin with h1 | h1
    · rw [h1]
    · exact hm p h1
  cases hg : mapGet m (dkey c) with
  | none => rw [dedupeStep_eq_none m c hg] at hp; exact hset hp
  | some ex =>
    rw [dedupeStep_eq_some m c ex hg] at hp
    split_ifs at hp
    · exact hset hp
    · exact hset hp
    · exact hm p hp

theorem dedupe_fold_key_inv :
    ∀ (libs : List Lib) (m : List (String × Lib)),
      (∀ p ∈ m, p.1 = dkey p.2) →
      ∀ p ∈ libs.foldl dedupeStep m, p.1 = dkey p.2 := by
  intro libs
  induction libs with
  | nil => intro m hm; exact hm
  | cons c t ih =>
    intro m hm
    rw [List.foldl_cons]
    exact ih _ (dedupeStep_key_inv m c hm)

theorem dedupe_fold_fresh :
    ∀ (l : List Lib) (m : List (String × Lib)),
      (∀ c ∈ l, mapGet m (dkey c) = none) →
      l.Pairwise (fun a b => dkey a ≠ dkey b) →
      l.foldl dedupeStep m = m ++ l.map fun c => (dkey c, c) := by
  intro l
  induction l with
  | nil => intro m _ _; simp
  | cons c t ih =>
    intro m hfresh hpw
    have hc := hfresh c (List.mem_cons_self _ _)
    rw [List.foldl_cons]
    have hstep : dedupeStep m c = m ++ [(dkey c, c)] := by
      rw [dedupeStep_eq_none m c hc]
      exact mapSet_absent m _ c hc
    rw [hstep]
    rw [List.pairwise_cons] at hpw
    rw [ih (m ++ [(dkey c, c)])
      (fun x hx => mapGet_append_single m _ _ c (hfresh x (List.mem_cons_of_mem _ hx))
        (fun he => hpw.1 x hx (he ▸ rfl)))
      hpw.2]
    simp

theorem pairwise_of_nodup_map {α β : Type} (f : α → β) :
    ∀ (l : List α), (l.map f).Nodup → l.Pairwise fun a b => f a ≠ f b := by
  intro l
  induction l with
  | nil => intro _; exact List.Pairwise.nil
  | cons x t ih =>
    intro h
    rw [List.map_cons, List.nodup_cons] at h
    refine List.Pairwise.cons (fun b hb hfeq => h.1 ?_) (ih h.2)
    rw [hfeq]
    exact List.mem_map_of_mem f hb

/-! ## Claim C7 -/

theorem dedupeSpecStep_vals (m : List (String × Lib)) (c : Lib)
    (hm : ∀ p ∈ m, (p.2 : Lib).version ≠ "") (hc : c.version ≠ "") :
    ∀ p ∈ dedupeSpecStep m c, (p.2 : Lib).version ≠ "" := by
  intro p hp
  have hset : p ∈ mapSet m (dkey c) c → (p.2 : Lib).version ≠ "" := fun hin => by
    rcases mem_mapSet m _ c p hin with h1 | h1
    · rw [h1]; exact hc
    · exact hm p h1
  cases hg : mapGet m (dkey c) with
  | none => rw [dedupeSpecStep_eq_none m c hg] at hp; exact hset hp
  | some ex =>
    rw [dedupeSpecStep_eq_some m c ex hg] at hp
    split_ifs at hp
    · exact hset hp
    · exact hset hp
    · exact hm p hp

theorem dedupe_fold_eq :
    ∀ (libs : List Lib) (m : List (String × Lib)),
      (∀ p ∈ m, (p.2 : Lib).version ≠ "") →
      (∀ c ∈ libs, c.version ≠ "") →
      libs.foldl dedupeStep m = libs.foldl dedupeSpecStep m := by
  intro libs
  induction libs with
  | nil => intro m _ _; rfl
  | cons c t ih =>
    intro m hm hv
    have hc : c.version ≠ "" := hv c (List.mem_cons_self _ _)
    have hstep : dedupeStep m c = dedupeSpecStep m c := by
      cases hg : mapGet m (dkey c) with
      | none => rw [dedupeStep_eq_none m c hg, dedupeSpecStep_eq_none m c hg]
      | some ex =>
        have hex : ex.version ≠ "" := hm (dkey c, ex) (mapGet_mem _ _ _ hg)
        have hcond : (¬ haveVer ex ∧ haveVer c)
            ↔ (ex.version = "unknown" ∧ c.version ≠ "unknown") := by
          unfold haveVer
          constructor
          · rintro ⟨hne, h2⟩
            refine ⟨?_, h2.2⟩
            by_contra hcon
            exact hne ⟨hex, hcon⟩
          · rintro ⟨he, hcv⟩
            exact ⟨fun hh => hh.2 he, hc, hcv⟩
        rw [dedupeStep_eq_some m c ex hg, dedupeSpecStep_eq_some m c ex hg]
        exact if_congr hcond rfl rfl
    rw [List.foldl_cons, List.foldl_cons, hstep,
      ih (dedupeSpecStep m c)
        (dedupeSpecStep_vals m c hm hc)
        (fun x hx => hv x (List.mem_cons_of_mem _ hx))]

/-- Claim C7: the deduplicator processes candidates in order, grouped by
lowercase name, replacing the retained candidate exactly when (1) the
retained version is the `"unknown"` sentinel and the incoming one is
concrete, or (2) the retained source is not `"runtime"` and the incoming
source is `"runtime"`; otherwise first-seen wins.  In particular two
same-name same-version candidates with a URL source and a `"runtime"`
source merge to the `"runtime"` one.  (The hypothesis that versions are
nonempty holds for every candidate the detectors produce; the code's
`haveVer` also treats the empty string as absent.) -/
theorem dedupe_merge_rules (libs : List Lib)
    (hv : ∀ c ∈ libs, c.version ≠ "") :
    dedupeLibs libs = dedupeSpec libs ∧
    dedupeLibs [{ name := "X", version := "1.2.3", source := "https://cdn/x.js" },
                { name := "X", version := "1.2.3", source := "runtime" }]
      = [{ name := "X", version := "1.2.3", source := "runtime" }] := by
  constructor
  · unfold dedupeLibs dedupeSpec
    rw [dedupe_fold_eq libs [] (by simp) hv]
  · decide

/-- Witness for C7 on the spec's own merge examples. -/
theorem dedupe_merge_rules_witness :
    dedupeLibs [{ name := "A", version := "unknown", source := "s1" },
                { name := "a", version := "1.0.0", source := "runtime" }]
      = dedupeSpec [{ name := "A", version := "unknown", source := "s1" },
                    { name := "a", version := "1.0.0", source := "runtime" }] :=
  (dedupe_merge_rules _ (by decide)).1

/-! ## Claim C8 -/

/-- Claim C8: deduplication is idempotent — applying `dedupeLibs` to its
own output returns that output unchanged — and its output has at most one
entry per case-insensitive name. -/
theorem dedupe_idempotent_and_unique (libs : List Lib) :
    dedupeLibs (dedupeLibs libs) = dedupeLibs libs ∧
    ((dedupeLibs libs).map dkey).Nodup := by
  have hkeys : ((libs.foldl dedupeStep []).map Prod.fst).Nodup :=
    dedupe_fold_keys_nodup libs [] (by simp)
  have hinv : ∀ p ∈ libs.foldl dedupeStep [], p.1 = dkey p.2 :=
    dedupe_fold_key_inv libs [] (by simp)
  have hmapeq : (dedupeLibs libs).map dkey
      = (libs.foldl dedupeStep []).map Prod.fst := by
    unfold dedupeLibs
    rw [List.map_map]
    refine List.map_congr_left fun p hp => ?_
    exact (hinv p hp).symm
  have hnodup : ((dedupeLibs libs).map dkey).Nodup := by
    rw [hmapeq]; exact hkeys
  refine ⟨?_, hnodup⟩
  have hpw : (dedupeLibs libs).Pairwise (fun a b => dkey a ≠ dkey b) :=
    pairwise_of_nodup_map dkey _ hnodup
  conv_lhs => rw [dedupeLibs]
  rw [dedupe_fold_fresh (dedupeLibs libs) [] (fun c _ => rfl) hpw]
  rw [List.nil_append, List.map_map]
  have hid : ∀ l : List Lib,
      l.map ((fun x : String × Lib => x.2) ∘ fun c => (dkey c, c)) = l := by
    intro l
    induction l with
    | nil => rfl
    | cons x t ih => rw [List.map_cons, ih]; rfl
  exact hid _

/-! ## Claim C5 -/

theorem dotGroupsF_chars (fuel : Nat) :
    ∀ cs c, c ∈ dotGroupsF fuel cs → c.isDigit = true ∨ c = '.' := by
  induction fuel with
  | zero => intro cs c hc; simp [dotGroupsF] at hc
  | succ f ih =>
    intro cs c hc
    match cs with
    | [] => simp [dotGroupsF] at hc
    | [a] => simp [dotGroupsF] at hc
    | a :: b :: rest =>
      rw [dotGroupsF] at hc
      split_ifs at hc with h
      · rcases List.mem_cons.mp hc with h1 | h1
        · right; exact h1
        · rcases List.mem_append.mp h1 with h2 | h2
          · left; exact List.mem_takeWhile_imp h2
          · exact ih _ c h2
      · simp at hc

theorem dotGroupsF_ne_nil_dot (fuel : Nat) (cs : List Char)
    (h : dotGroupsF fuel cs ≠ []) : '.' ∈ dotGroupsF fuel cs := by
  match fuel, cs with
  | 0, _ => exact absurd rfl h
  | f+1, [] => exact absurd rfl h
  | f+1, [a] => exact absurd rfl h
  | f+1, a :: b :: rest =>
    rw [dotGroupsF] at h ⊢
    split_ifs at h ⊢ with hc
    · exact List.mem_cons_self _ _
    · exact absurd rfl h

theorem matchVersion_shape (cs : List Char) (v : String)
    (h : matchVersion cs = some v) :
    (∀ ch ∈ v.data, ch.isDigit = true ∨ ch = '.') ∧ '.' ∈ v.data ∧
      ∃ d t, v.data = d :: t ∧ d.isDigit = true := by
  match cs with
  | [] => simp [matchVersion] at h
  | c :: rest =>
    rw [matchVersion] at h
    split_ifs at h with hc hgs
    simp at h
    have hv : v.data = (c :: rest).takeWhile Char.isDigit
        ++ dotGroups ((c :: rest).dropWhile Char.isDigit) := by
      rw [← h]
    have htw : (c :: rest).takeWhile Char.isDigit
        = c :: rest.takeWhile Char.isDigit := by
      simp [List.takeWhile_cons, hc]
    refine ⟨?_, ?_, ?_⟩
    · intro ch hch
      rw [hv] at hch
      rcases List.mem_append.mp hch with h1 | h1
      · left; exact List.mem_takeWhile_imp h1
      · exact dotGroupsF_chars _ _ ch h1
    · rw [hv]
      refine List.mem_append.mpr (Or.inr ?_)
      exact dotGroupsF_ne_nil_dot _ _ (by simpa using hgs)
    · refine ⟨c, rest.takeWhile Char.isDigit
        ++ dotGroups ((c :: rest).dropWhile Char.isDigit), ?_, hc⟩
      rw [hv, htw]
      rfl

theorem matchLibAt_version (name s : List Char) (v : String)
    (h : matchLibAt name s = some v) : ∃ cs, matchVersion cs = some v := by
  unfold matchLibAt at h
  split_ifs at h with hs
  match hd : s.drop name.length with
  | [] => rw [hd] at h; simp at h
  | c :: r =>
    rw [hd] at h
    have h' : (if c = '-' ∨ c = '.' then
        match matchVersion r with
        | some w => some w
        | none => matchVersion (c :: r)
      else matchVersion (c :: r)) = some v := h
    split_ifs at h' with hcr
    · cases hm : matchVersion r with
      | some w => rw [hm] at h'; simp at h'; exact ⟨r, by rw [hm, h']⟩
      | none => rw [hm] at h'; exact ⟨c :: r, h'⟩
    · exact ⟨c :: r, h'⟩

theorem findLibMatch_version (name : List Char) :
    ∀ s v, findLibMatch name s = some v → ∃ cs, matchVersion cs = some v := by
  intro s
  induction s with
  | nil => intro v h; simp [findLibMatch] at h
  | cons a t ih =>
    intro v h
    rw [findLibMatch] at h
    cases hm : matchLibAt name (a :: t) with
    | some w =>
      rw [hm] at h
      simp at h
      exact h ▸ matchLibAt_version name (a :: t) w hm
    | none =>
      rw [hm] at h
      exact ih v h

theorem detectLibraries_mem (scripts : List String) (c : Lib)
    (h : c ∈ detectLibraries scripts) :
    ∃ script ∈ scripts, ∃ lib ∈ knownLibNames, ∃ v,
      findLibMatch (lowerStr lib).data (lowerStr script).data = some v ∧
      c = { name := capitalize lib, version := v, source := script } := by
  unfold detectLibraries at h
  rw [List.mem_flatMap] at h
  obtain ⟨script, hs, hmem⟩ := h
  rw [List.mem_filterMap] at hmem
  obtain ⟨lib, hl, heq⟩ := hmem
  cases hfm : findLibMatch (lowerStr lib).data (lowerStr script).data with
  | none => rw [hfm] at heq; simp at heq
  | some v =>
    rw [hfm] at heq
    simp at heq
    exact ⟨script, hs, lib, hl, v, hfm, heq.symm⟩

/-- Claim C5 counterexample: `jquery.min.js` contains the catalog name
`jquery` (as a prefix, with no dotted numeric version after it), yet
`detectLibraries` emits NO candidate for it — the claim's
`version = "unknown"` fallback never happens, because the regex's version
group is mandatory. -/
theorem static_detector_requires_version :
    strStarts "jquery" "jquery.min.js" = true ∧
    detectLibraries ["jquery.min.js"] = [] := ⟨by decide, by decide⟩

/-- Claim C5 (amended): `detectLibraries` emits a candidate only when the
URL contains the catalog name optionally followed by `-` or `.` and then
a dotted numeric version of two or more components; the emitted version
is always that captured dotted token — it begins with a digit, contains a
dot, consists only of digits and dots, and is never `"unknown"` — and the
reported name is the catalog name capitalized; on the spec's example URL
`/assets/jquery-3.5.1.min.js` exactly the candidate
`(Jquery, 3.5.1)` is emitted. -/
theorem static_candidates_always_versioned (scripts : List String) (c : Lib)
    (hc : c ∈ detectLibraries scripts) :
    c.name ∈ knownLibNames.map capitalize ∧
    c.source ∈ scripts ∧
    c.version ≠ "unknown" ∧
    '.' ∈ c.version.data ∧
    (∀ ch ∈ c.version.data, ch.isDigit = true ∨ ch = '.') ∧
    (∃ d t, c.version.data = d :: t ∧ d.isDigit = true) ∧
    detectLibraries ["/assets/jquery-3.5.1.min.js"]
      = [{ name := "Jquery", version := "3.5.1",
           source := "/assets/jquery-3.5.1.min.js" }] := by
  obtain ⟨script, hs, lib, hl, v, hfm, hceq⟩ := detectLibraries_mem scripts c hc
  obtain ⟨cs, hmv⟩ := findLibMatch_version _ _ v hfm
  obtain ⟨hchars, hdot, d, t, hdt, hd⟩ := matchVersion_shape cs v hmv
  have hne : v ≠ "unknown" := by
    intro hu
    rw [hu] at hdt
    have : d = 'u' := by
      have : ("unknown" : String).data = 'u' :: "nknown".data := rfl
      rw [this] at hdt
      exact (List.cons.injEq _ _ _ _ ▸ hdt).1.symm
    rw [this] at hd
    exact absurd hd (by decide)
  rw [hceq]
  exact ⟨List.mem_map_of_mem capitalize hl, hs, hne, hdot, hchars,
    ⟨d, t, hdt, hd⟩, by decide⟩

/-- Witness for C5 on the spec's example: the `Jquery 3.5.1` candidate is
in the output and its version is not the sentinel. -/
theorem static_candidates_always_versioned_witness :
    ({ name := "Jquery", version := "3.5.1",
       source := "/assets/jquery-3.5.1.min.js" } : Lib)
      ∈ detectLibraries ["/assets/jquery-3.5.1.min.js"] ∧
    ({ name := "Jquery", version := "3.5.1",
       source := "/assets/jquery-3.5.1.min.js" } : Lib).version ≠ "unknown" :=
  ⟨by decide,
   (static_candidates_always_versioned ["/assets/jquery-3.5.1.min.js"]
     { name := "Jquery", version := "3.5.1",
       source := "/assets/jquery-3.5.1.min.js" } (by decide)).2.2.1⟩

/-! ## Claim C9 -/

theorem detCv_fetch_none (fetch : String → Option String) (fc : Bool)
    (u : String) (det : Detector) (hf : fetch u = none) :
    detCv fetch fc u det = (false, detV0 det u) := by
  unfold detCv
  rw [hf]
  split_ifs <;> rfl

theorem detCv_congr (f g : String → Option String) (fc : Bool)
    (u : String) (det : Detector) (hw : f u = g u) :
    detCv f fc u det = detCv g fc u det := by
  unfold detCv
  rw [hw]

theorem detHit_congr (f g : String → Option String) (fc : Bool)
    (u : String) (det : Detector) (hw : f u = g u) :
    detHit f fc u det = detHit g fc u det := by
  unfold detHit
  rw [detCv_congr f g fc u det hw]

theorem detHit_url (fetch : String → Option String) (fc : Bool)
    (u : String) (det : Detector) :
    ∀ h ∈ detHit fetch fc u det, h.url = u := by
  intro h hp
  unfold detHit at hp
  split_ifs at hp <;>
    first
      | (rw [List.mem_singleton] at hp; rw [hp])
      | simp at hp

theorem detHit_fetch_none_eq (fetch : String → Option String)
    (u : String) (det : Detector) (hf : fetch u = none) :
    detHit fetch true u det
      = if detFileHit det u then
          [{ name := det.libName,
             version := (detV0 det u).getD "unknown",
             source := "retire-url", url := u, retireVulns := det.vulns }]
        else [] := by
  unfold detHit
  rw [detCv_fetch_none fetch true u det hf]
  by_cases hfil : detFileHit det u
  · simp [hfil]
  · simp [hfil]

theorem candidateHits_congr (dets : List Detector)
    (f g : String → Option String) (fc : Bool) (w : String)
    (hw : f w = g w) :
    candidateHits dets f fc w = candidateHits dets g fc w := by
  unfold candidateHits
  induction dets with
  | nil => rfl
  | cons d t ih =>
    rw [List.flatMap_cons, List.flatMap_cons, detHit_congr f g fc w d hw, ih]

/-- Claim C9: the signature detector is total (it returns a plain list of
hits for every input) and a fetch failure or timeout on one candidate is
swallowed: (1) under a failing fetch for `u`, every raw hit for `u` is
filename-based (`retire-url`), never content-based; (2) the hits of every
other candidate `w` are unchanged between any two fetch behaviours that
agree outside `u`; (3) a filename-pattern hit for `u` is still emitted,
with the version extracted from the URL or `"unknown"`. -/
theorem retire_fetch_failure_isolated (dets : List Detector)
    (f g : String → Option String) (urls : List String) (u : String)
    (hfail : f u = none) (hagree : ∀ w, w ≠ u → f w = g w) :
    (∀ h ∈ rawHits dets f true urls, h.url = u → h.source = "retire-url") ∧
    (∀ w, w ≠ u → candidateHits dets f true w = candidateHits dets g true w) ∧
    (∀ det ∈ dets, detFileHit det u = true →
      { name := det.libName,
        version := (detV0 det u).getD "unknown",
        source := "retire-url", url := u, retireVulns := det.vulns }
        ∈ candidateHits dets f true u) := by
  refine ⟨?_, ?_, ?_⟩
  · intro h hp hurl
    unfold rawHits at hp
    rw [List.mem_flatMap] at hp
    obtain ⟨w, hwsel, hw⟩ := hp
    unfold candidateHits at hw
    rw [List.mem_flatMap] at hw
    obtain ⟨det, hdet, hhit⟩ := hw
    have hwu : w = u := by rw [← hurl]; exact (detHit_url f true w det h hhit).symm
    rw [hwu] at hhit
    rw [detHit_fetch_none_eq f u det hfail] at hhit
    split_ifs at hhit with hfil
    · rw [List.mem_singleton] at hhit
      rw [hhit]
    · simp at hhit
  · intro w hwne
    exact candidateHits_congr dets f g true w (hagree w hwne)
  · intro det hdet hfil
    unfold candidateHits
    rw [List.mem_flatMap]
    refine ⟨det, hdet, ?_⟩
    rw [detHit_fetch_none_eq f u det hfail, if_pos hfil]
    exact List.mem_singleton.mpr rfl

/-- Witness for C9: a failing fetch plus one detector whose filename
pattern matches the candidate `u.js` without a version token — the
filename hit survives with version `"unknown"`. -/
theorem retire_fetch_failure_isolated_witness :
    wFetch "u.js" = none ∧
    ({ name := "jquery", version := "unknown", source := "retire-url",
       url := "u.js", retireVulns := [] } : RetireHit)
      ∈ candidateHits [wDet0] wFetch true "u.js" := by
  have h := (retire_fetch_failure_isolated [wDet0] wFetch wFetch ["u.js"]
    "u.js" rfl (fun _ _ => rfl)).2.2 wDet0 (List.mem_singleton.mpr rfl)
    (by decide)
  exact ⟨rfl, h⟩

/-- Witness for C1 at a one-library list whose enrichment calls both
fail but whose budget does not expire: the library stays, enriched with
nulled fields. -/
theorem enrichment_keeps_errored_drops_timed_out_witness :
    scanLibraries
        (fun _ => { registry := .error (), osv := .error (), timedOut := false })
        [{ name := "jquery", version := "3.0.0", source := "s" }]
      = [enrichLib (.error ()) (.error ())
          { name := "jquery", version := "3.0.0", source := "s" }] := by
  have h := (enrichment_keeps_errored_drops_timed_out
    (fun _ => { registry := .error (), osv := .error (), timedOut := false })
    [{ name := "jquery", version := "3.0.0", source := "s" }]).1
  simpa using h

/-- Witness for C2 at latest version `3.0.0`. -/
theorem unknown_version_coerced_to_zero_witness :
    coerceSemver "unknown" = "0.0.0" ∧
    (determineIfLatestVersion (.ok (some "3.0.0")) "jquery" "unknown").map
      VerResult.isOutdated
      = .ok (decide (semverLt (0, 0, 0) (parseSemver "3.0.0"))) := by
  have h := unknown_version_coerced_to_zero "jquery" "3.0.0"
  exact ⟨h.1, h.2.2⟩

/-- Witness for C3 at concrete inputs. -/
theorem registry_failure_modes_witness :
    determineIfLatestVersion (.error ()) "jquery" "3.5.1" = .error () ∧
    (enrichLib (.error ()) (.ok [])
      { name := "jquery", version := "3.5.1", source := "s" }).diff
      = "unknown" := by
  have h := registry_failure_modes "jquery" "3.5.1"
    { name := "jquery", version := "3.5.1", source := "s" } (.ok [])
  exact ⟨h.1, h.2.2.2.1⟩

/-- Witness for C8 at a two-candidate list that dedupes to one entry. -/
theorem dedupe_idempotent_and_unique_witness :
    dedupeLibs (dedupeLibs [{ name := "X", version := "1.0.0", source := "a" },
                            { name := "x", version := "2.0.0", source := "b" }])
      = dedupeLibs [{ name := "X", version := "1.0.0", source := "a" },
                    { name := "x", version := "2.0.0", source := "b" }] :=
  (dedupe_idempotent_and_unique
    [{ name := "X", version := "1.0.0", source := "a" },
     { name := "x", version := "2.0.0", source := "b" }]).1

end DepScan
